import Mathlib

/-!
Verification of the p2p chat repository's peer-session orchestration layer.

Shallow embedding of the JavaScript sources:
  - src/js/message-handler.js  (dual-path send, receive-side deduplication)
  - src/js/webrtc-handler.js   (peer connections, candidate buffering, broadcast send)
  - src/js/group-call-handler.js (mesh call start/accept/join)
  - src/js/reconnection-manager.js (backoff state machine)
  - src/js/app.js              (initiator election on peer join)

JavaScript `Map` objects are embedded as insertion-ordered association
lists `List (String × α)`: `Map.set` replaces the entry in place when the
key is present and appends otherwise, `Map.delete` removes the entry,
`Map.has` and `Map.get` search by key.  JS `Set` objects are embedded as
duplicate-free `List String` in insertion order.
-/

namespace P2P

/-! ### Association-list model of JS `Map` -/

def mapHas {α : Type} (m : List (String × α)) (k : String) : Bool :=
  m.any (fun p => p.1 == k)

def mapGet? {α : Type} (m : List (String × α)) (k : String) : Option α :=
  (m.find? (fun p => p.1 == k)).map (fun p => p.2)

/-- JS `Map.set`: replace the value in place when the key is present,
append a new entry otherwise (JS maps preserve insertion order). -/
def mapSet {α : Type} : List (String × α) → String → α → List (String × α)
  | [], k, v => [(k, v)]
  | p :: rest, k, v => if p.1 == k then (k, v) :: rest else p :: mapSet rest k v

def mapDelete {α : Type} (m : List (String × α)) (k : String) : List (String × α) :=
  m.filter (fun p => !(p.1 == k))

/-- JS `Set.add` on an insertion-ordered duplicate-free list. -/
def setInsert (l : List String) (x : String) : List String :=
  if l.contains x then l else l ++ [x]

/-- JS `new Set(xs)`: dedup, keeping first occurrences in order. -/
def setOfList (xs : List String) : List String :=
  xs.foldl setInsert []

/-! ### Message handler (src/js/message-handler.js)

`MessageHandler` keeps `this.messages`, a `Map` from message id to the
stored record, used both to track sent messages and to deduplicate
received ones, plus the list of registered message callbacks (modelled
by its length, since `receiveMessage` invokes each exactly once on
admission). -/

inductive Source where
  | webrtc
  | firebase
deriving DecidableEq, Repr

inductive Method where
  | webrtc
  | firebase
deriving DecidableEq, Repr

structure StoredMessage where
  sent : Bool
  delivered : Bool
  method : Option Method
  received : Bool
  source : Option Source
deriving DecidableEq, Repr

structure MessageHandler where
  messages : List (String × StoredMessage)
  messageCallbacks : Nat
deriving DecidableEq, Repr

/-- generateMessageId in the source returns a timestamp-random string
built as Date.now() + a dash + a random base-36 suffix. -/
def generateMessageId (nowMs : Nat) (rand : String) : String :=
  Nat.repr nowMs ++ "-" ++ rand

/-- MessageHandler.receiveMessage: returns whether the message was
admitted, the updated handler, and the number of callback invocations
performed (each registered callback is called once on admission). -/
def MessageHandler.receiveMessage (s : MessageHandler) (id : String) (src : Source) :
    Bool × MessageHandler × Nat :=
  if mapHas s.messages id then (false, s, 0)
  else
    (true,
     { s with
        messages := mapSet s.messages id
          { sent := false, delivered := false, method := none,
            received := true, source := some src } },
     s.messageCallbacks)

/-- Deliver the same message id repeatedly, once per entry of `srcs`
(each entry is the path the copy arrived on).  Returns the list of
per-call results, the final handler and the total callback invocations. -/
def MessageHandler.receiveMany (s : MessageHandler) (id : String) :
    List Source → List Bool × MessageHandler × Nat
  | [] => ([], s, 0)
  | sc :: rest =>
    let r := s.receiveMessage id sc
    let rr := MessageHandler.receiveMany r.2.1 id rest
    (r.1 :: rr.1, rr.2.1, r.2.2 + rr.2.2)

/-- Deliver a list of (distinct) message ids one after another. -/
def MessageHandler.receiveAll (s : MessageHandler) : List String → MessageHandler
  | [] => s
  | id :: rest => MessageHandler.receiveAll (s.receiveMessage id Source.webrtc).2.1 rest

/-- Environment of a single MessageHandler.sendMessage call: which
handlers exist, whether any WebRTC data channel is open
(webrtcHandler.isConnected()), and what each path's send returns. -/
structure SendEnv where
  webrtcPresent : Bool
  webrtcConnected : Bool
  webrtcSendOk : Bool
  firebasePresent : Bool
  firebaseSendOk : Bool
deriving DecidableEq, Repr

/-- MessageHandler.sendMessage: tracks the freshly generated id, tries
WebRTC first when connected, falls back to Firebase when the message was
not sent, records the delivery method, and returns the message (its id)
on success and null (`none`) when no channel delivered it. -/
def MessageHandler.sendMessage (s : MessageHandler) (newId : String) (env : SendEnv) :
    Option String × Option Method × MessageHandler :=
  let s1 : MessageHandler :=
    { s with
        messages := mapSet s.messages newId
          { sent := true, delivered := false, method := none,
            received := false, source := none } }
  let directSent := env.webrtcPresent && env.webrtcConnected && env.webrtcSendOk
  let fallbackSent := !directSent && env.firebasePresent && env.firebaseSendOk
  let sendMethod : Option Method :=
    if directSent then some Method.webrtc
    else if fallbackSent then some Method.firebase
    else none
  if directSent || fallbackSent then
    (some newId, sendMethod,
     { s1 with
        messages := mapSet s1.messages newId
          { sent := true, delivered := true, method := sendMethod,
            received := false, source := none } })
  else (none, none, s1)

/-! ### Initiator election (src/js/app.js, src/js/group-call-handler.js,
src/js/reconnection-manager.js)

All three sites compute `selfId < peerId` (lexicographic string
comparison) with no coordination. -/

/-- Election in P2PChatApp.setupFirebaseHandlers onPeerJoined:
`const shouldInitiate = this.userId < peerId`. -/
def appShouldInitiate (userId peerId : String) : Bool :=
  decide (userId < peerId)

/-- Election in GroupCallHandler.acceptGroupCall (also
handleGroupCallAccept, handleParticipantJoined):
`const shouldInitiate = this.userId < peerId`. -/
def groupCallShouldInitiate (userId peerId : String) : Bool :=
  decide (userId < peerId)

/-- Election in ReconnectionManager.reconnectWebRTC:
`const shouldInitiate = app.userId < peerId`. -/
def reconnectShouldInitiate (userId peerId : String) : Bool :=
  decide (userId < peerId)

/-! ### WebRTC handler (src/js/webrtc-handler.js)

Per-peer `RTCPeerConnection` state as far as signal handling observes
it: who initiated, whether the remote description has been set, whether
the local side is in signaling state have-local-offer, and the ordered
log of ICE candidates passed to addIceCandidate (the ghost field
`applied`). -/

structure RTCConn where
  isInitiator : Bool
  remoteDescSet : Bool
  haveLocalOffer : Bool
  applied : List String
deriving DecidableEq, Repr

/-- A data channel as WebRTCHandler.sendMessage observes it:
its owner peer id, readyState, bufferedAmount, and whether
channel.send would succeed (it throws otherwise). -/
structure DataChannel where
  peerId : String
  isOpen : Bool
  bufferedAmount : Nat
  sendOk : Bool
deriving DecidableEq, Repr

structure WebRTCHandler where
  peers : List (String × RTCConn)
  dataChannels : List (String × DataChannel)
  pendingCandidates : List (String × List String)
  initiatorMap : List (String × Bool)
deriving DecidableEq, Repr

/-- An incoming signal, routed by its `type` field.  The Bool carries
whether the offer/answer payload is present and well-formed; a candidate
signal carries `some c` when `signalData.candidate.candidate` exists. -/
inductive SignalMsg where
  | offer (valid : Bool)
  | answer (valid : Bool)
  | iceCandidate (candidate : Option String)
deriving DecidableEq, Repr

def freshConn (isInitiator : Bool) : RTCConn :=
  { isInitiator := isInitiator, remoteDescSet := false,
    haveLocalOffer := isInitiator, applied := [] }

/-- WebRTCHandler.cleanupPeer: close and drop the data channel and the
connection, and clear the per-peer bookkeeping maps. -/
def WebRTCHandler.cleanupPeer (s : WebRTCHandler) (peerId : String) : WebRTCHandler :=
  { s with
      dataChannels := mapDelete s.dataChannels peerId,
      peers := mapDelete s.peers peerId,
      initiatorMap := mapDelete s.initiatorMap peerId,
      pendingCandidates := mapDelete s.pendingCandidates peerId }

/-- WebRTCHandler.createPeerConnection: cleans up any existing
connection for the peer first, records the initiator flag, and installs
a fresh connection (an initiator creates the data channel and a local
offer, entering signaling state have-local-offer). -/
def WebRTCHandler.createPeerConnection (s : WebRTCHandler) (peerId : String)
    (isInitiator : Bool) : WebRTCHandler :=
  let s := if mapHas s.peers peerId then s.cleanupPeer peerId else s
  let s := { s with initiatorMap := mapSet s.initiatorMap peerId isInitiator }
  { s with peers := mapSet s.peers peerId (freshConn isInitiator) }

def WebRTCHandler.setPeer (s : WebRTCHandler) (peerId : String) (pc : RTCConn) :
    WebRTCHandler :=
  { s with peers := mapSet s.peers peerId pc }

/-- WebRTCHandler.processPendingCandidates: when a queue exists and is
nonempty and the connection has a remote description, apply every
buffered candidate in order and delete the queue. -/
def WebRTCHandler.processPendingCandidates (s : WebRTCHandler) (peerId : String) :
    WebRTCHandler :=
  match mapGet? s.pendingCandidates peerId with
  | none => s
  | some cands =>
    if cands.length > 0 then
      match mapGet? s.peers peerId with
      | none => s
      | some pc =>
        if pc.remoteDescSet then
          let s := s.setPeer peerId { pc with applied := pc.applied ++ cands }
          { s with pendingCandidates := mapDelete s.pendingCandidates peerId }
        else s
    else s

/-- WebRTCHandler.handleSignal, routing by signal type.
offer: create a responder connection if none exists, set the remote
description, answer, then flush buffered candidates.
answer: only applied in signaling state have-local-offer, then flush.
ice-candidate: create a responder connection if none exists; apply
immediately when the remote description is set, otherwise queue. -/
def WebRTCHandler.handleSignal (s : WebRTCHandler) (peerId : String) (sig : SignalMsg) :
    WebRTCHandler :=
  match sig with
  | SignalMsg.offer valid =>
    let s := if mapHas s.peers peerId then s else s.createPeerConnection peerId false
    match mapGet? s.peers peerId, valid with
    | some pc, true =>
      let s := s.setPeer peerId { pc with remoteDescSet := true }
      s.processPendingCandidates peerId
    | _, _ => s
  | SignalMsg.answer valid =>
    match mapGet? s.peers peerId with
    | none => s
    | some pc =>
      if !valid then s
      else if pc.haveLocalOffer then
        let s := s.setPeer peerId
          { pc with remoteDescSet := true, haveLocalOffer := false }
        s.processPendingCandidates peerId
      else s
  | SignalMsg.iceCandidate cand =>
    let s := if mapHas s.peers peerId then s else s.createPeerConnection peerId false
    match mapGet? s.peers peerId, cand with
    | some pc, some c =>
      if pc.remoteDescSet then
        s.setPeer peerId { pc with applied := pc.applied ++ [c] }
      else
        { s with
            pendingCandidates := mapSet s.pendingCandidates peerId
              (((mapGet? s.pendingCandidates peerId).getD []) ++ [c]) }
    | _, _ => s

/-- WebRTCHandler.sendMessage iterates over all data channels in
insertion order: a channel that is not open is skipped, an open channel
whose buffer exceeds 16 MiB is skipped, a send that throws removes the
channel, and any successful send sets the result to true.  Returns
(sent, remaining channels, peers the message was sent to). -/
def WebRTCHandler.sendLoop :
    List (String × DataChannel) → Bool × List (String × DataChannel) × List String
  | [] => (false, [], [])
  | (pid, c) :: rest =>
    let r := WebRTCHandler.sendLoop rest
    if c.isOpen then
      if c.bufferedAmount > 16 * 1024 * 1024 then (r.1, (pid, c) :: r.2.1, r.2.2)
      else if c.sendOk then (true, (pid, c) :: r.2.1, pid :: r.2.2)
      else (r.1, r.2.1, r.2.2)
    else (r.1, (pid, c) :: r.2.1, r.2.2)

/-- WebRTCHandler.sendMessage takes only the message — there is no
addressed-peer parameter — and broadcasts it on every open channel. -/
def WebRTCHandler.sendMessage (s : WebRTCHandler) :
    Bool × List (String × DataChannel) × List String :=
  WebRTCHandler.sendLoop s.dataChannels

/-- The buffered candidate queue for a peer (empty when absent). -/
def WebRTCHandler.pendingOf (s : WebRTCHandler) (peerId : String) : List String :=
  (mapGet? s.pendingCandidates peerId).getD []

/-- The ordered log of candidates applied to a peer's connection
(empty when no connection exists). -/
def WebRTCHandler.appliedOf (s : WebRTCHandler) (peerId : String) : List String :=
  match mapGet? s.peers peerId with
  | some pc => pc.applied
  | none => []

/-- A channel accepts a broadcast send when it is open, its buffer is
within the 16 MiB limit, and channel.send does not throw. -/
def channelAccepts (pc : String × DataChannel) : Bool :=
  pc.2.isOpen && !(decide (pc.2.bufferedAmount > 16 * 1024 * 1024)) && pc.2.sendOk

/-- An existing non-terminal responder session for peer "a", with an
open data channel and one buffered candidate — the C6 counterexample
state. -/
def oldConnA : RTCConn :=
  { isInitiator := false, remoteDescSet := true, haveLocalOffer := false, applied := [] }

def wExisting : WebRTCHandler :=
  { peers := [("a", oldConnA)],
    dataChannels :=
      [("a", { peerId := "a", isOpen := true, bufferedAmount := 0, sendOk := true })],
    pendingCandidates := [("a", ["c1"])],
    initiatorMap := [("a", false)] }

/-- An initiator connection to peer "p" awaiting its answer, with one
buffered candidate — the witness state for candidate buffering. -/
def wOffer : WebRTCHandler :=
  { peers := [("p", freshConn true)],
    dataChannels := [],
    pendingCandidates := [("p", ["k1"])],
    initiatorMap := [("p", true)] }

/-! ### Group call handler (src/js/group-call-handler.js) -/

structure GroupCall where
  id : String
  initiator : String
  participants : List String
  isVideo : Bool
deriving DecidableEq, Repr

/-- Group-call state: own id, the current call (if any) and the per-call
connection map `callConnections` (value: whether we created the offer). -/
structure GroupCallHandler where
  userId : String
  currentGroupCall : Option GroupCall
  callConnections : List (String × Bool)
deriving DecidableEq, Repr

def maxParticipants : Nat := 4

/-- Idle handler of user "m" used by the C7 counterexample. -/
def gStarter : GroupCallHandler :=
  { userId := "m", currentGroupCall := none, callConnections := [] }

inductive StartResult where
  | alreadyInCall
  | noPeers
  | cancelled
  | mediaError
  | started (invited : List String)
deriving DecidableEq, Repr

/-- GroupCallHandler.startGroupCall: no-op when already in a call or no
peers are available; an empty selection opens the selection dialog (the
cancelled path); a selection longer than maxParticipants - 1 is sliced
to the first three entries (with an alert); then local media is
acquired, the call object is built with participants
{self} ∪ selection, and an invite carrying the full participant list is
sent to each selected peer. -/
def GroupCallHandler.startGroupCall (g : GroupCallHandler) (availablePeers : List String)
    (selectedPeerIds : List String) (withVideo : Bool) (mediaOk : Bool) (now : Nat) :
    GroupCallHandler × StartResult :=
  if g.currentGroupCall.isSome then (g, StartResult.alreadyInCall)
  else if availablePeers.isEmpty then (g, StartResult.noPeers)
  else if selectedPeerIds.isEmpty then (g, StartResult.cancelled)
  else
    let sel :=
      if selectedPeerIds.length > maxParticipants - 1 then
        selectedPeerIds.take (maxParticipants - 1)
      else selectedPeerIds
    if !mediaOk then (g, StartResult.mediaError)
    else
      let call : GroupCall :=
        { id := "group-" ++ Nat.repr now, initiator := g.userId,
          participants := setOfList (g.userId :: sel), isVideo := withVideo }
      ({ g with currentGroupCall := some call }, StartResult.started sel)

/-- A group-call-invite payload: callId, inviter, the full participant
list from the inviter's call state, and the media kind. -/
structure InviteMsg where
  callId : String
  fromId : String
  participants : List String
  isVideo : Bool
deriving DecidableEq, Repr

/-- The connection loop of GroupCallHandler.acceptGroupCall: walk the
inviter's participant list in order; for every member other than self,
compute shouldInitiate = userId < peerId and, when it holds, connect to
that participant with createOffer = true.  Returns the updated
connection map and the peers connected to, in order. -/
def GroupCallHandler.acceptLoop (userId : String) (conns : List (String × Bool)) :
    List String → List (String × Bool) × List String
  | [] => (conns, [])
  | p :: rest =>
    if p ≠ userId ∧ userId < p then
      let r := GroupCallHandler.acceptLoop userId (mapSet conns p true) rest
      (r.1, p :: r.2)
    else GroupCallHandler.acceptLoop userId conns rest

/-- GroupCallHandler.acceptGroupCall: seed the participant set from the
invite payload plus the inviter, store the call, send the acceptance
and a participant-joined broadcast, then run the connection loop over
the payload's participant list.  Returns the new state and the list of
peers a connection was initiated to. -/
def GroupCallHandler.acceptGroupCall (g : GroupCallHandler) (msg : InviteMsg) :
    GroupCallHandler × List String :=
  let allParticipants := setOfList (msg.participants ++ [msg.fromId])
  let call : GroupCall :=
    { id := msg.callId, initiator := msg.fromId,
      participants := allParticipants, isVideo := msg.isVideo }
  let r := GroupCallHandler.acceptLoop g.userId g.callConnections msg.participants
  ({ g with currentGroupCall := some call, callConnections := r.1 }, r.2)

/-- GroupCallHandler.handleParticipantJoined: ignore messages for other
calls; add the joiner to the participant set; when no connection with
the joiner exists, initiate one exactly when userId < joiner, else wait
for the joiner to initiate.  Returns the new state and whether a
connection was initiated. -/
def GroupCallHandler.handleParticipantJoined (g : GroupCallHandler)
    (callId fromId : String) : GroupCallHandler × Bool :=
  match g.currentGroupCall with
  | none => (g, false)
  | some call =>
    if call.id ≠ callId then (g, false)
    else
      let call := { call with participants := setInsert call.participants fromId }
      let g := { g with currentGroupCall := some call }
      if mapHas g.callConnections fromId then (g, false)
      else if g.userId < fromId then
        ({ g with callConnections := mapSet g.callConnections fromId true }, true)
      else (g, false)

/-- The receiver-side filter shared by the group-call control handlers
(`if (message.to && message.to !== this.userId) return`): a message is
processed when it has no `to` field or the `to` field names us. -/
def groupMessageForUs (selfId : String) (toField : Option String) : Bool :=
  match toField with
  | none => true
  | some t => t == selfId

/-- Guard of GroupCallHandler.handleGroupCallOffer: the offer is
processed only when a current call with a matching callId exists and
the `to` filter passes. -/
def GroupCallHandler.offerProcessed (g : GroupCallHandler) (callId : String)
    (toField : Option String) : Bool :=
  match g.currentGroupCall with
  | none => false
  | some call => call.id == callId && groupMessageForUs g.userId toField

/-! ### Reconnection manager (src/js/reconnection-manager.js) -/

inductive RStatus where
  | idle
  | detecting
  | reconnecting
  | connected
  | failed
deriving DecidableEq, Repr

structure ReconnectionManager where
  reconnectionState : RStatus
  reconnectionAttempts : Nat
  reconnectionDelay : Nat
deriving DecidableEq, Repr

def maxReconnectionAttempts : Nat := 5

def maxReconnectionDelay : Nat := 30000

/-- Constructor state: idle, zero attempts, 1 s starting delay. -/
def initialReconnectionManager : ReconnectionManager :=
  { reconnectionState := RStatus.idle, reconnectionAttempts := 0,
    reconnectionDelay := 1000 }

/-- Entry of ReconnectionManager.startReconnection: bail out if already
reconnecting, else move to reconnecting and increment the attempt
counter. -/
def ReconnectionManager.startReconnectionBegin (s : ReconnectionManager) :
    ReconnectionManager :=
  if s.reconnectionState = RStatus.reconnecting then s
  else
    { s with reconnectionState := RStatus.reconnecting,
             reconnectionAttempts := s.reconnectionAttempts + 1 }

/-- ReconnectionManager.handleReconnectionFailure: at the attempt cap,
enter the terminal failed state (no retry scheduled); otherwise double
the delay (capped at 30 s), return to detecting, and schedule the next
attempt after that delay (returned as `some delay`). -/
def ReconnectionManager.handleReconnectionFailure (s : ReconnectionManager) :
    ReconnectionManager × Option Nat :=
  if s.reconnectionAttempts ≥ maxReconnectionAttempts then
    ({ s with reconnectionState := RStatus.failed }, none)
  else
    let d := min (s.reconnectionDelay * 2) maxReconnectionDelay
    ({ s with reconnectionDelay := d, reconnectionState := RStatus.detecting }, some d)

/-- One reconnection attempt that fails: enter startReconnection, then
run its failure handler. -/
def ReconnectionManager.failedAttempt (s : ReconnectionManager) :
    ReconnectionManager × Option Nat :=
  (s.startReconnectionBegin).handleReconnectionFailure

/-- Iterate `n` consecutive failed attempts, collecting the scheduled
backoff delays (`none` marks an attempt that ended in the failed
state). -/
def ReconnectionManager.failedAttempts (s : ReconnectionManager) :
    Nat → ReconnectionManager × List (Option Nat)
  | 0 => (s, [])
  | n + 1 =>
    let r := s.failedAttempt
    let rr := ReconnectionManager.failedAttempts r.1 n
    (rr.1, r.2 :: rr.2)

/-- ReconnectionManager.manualReconnect: reset the attempt counter and
the backoff delay to their initial values, cancel any pending timer, and
start reconnection. -/
def ReconnectionManager.manualReconnect (s : ReconnectionManager) : ReconnectionManager :=
  ({ s with reconnectionAttempts := 0, reconnectionDelay := 1000 }).startReconnectionBegin

/-- ReconnectionManager.handleConnectionLoss: returns unless the state
is idle (so the terminal failed state is never left automatically); from
idle it moves to detecting. -/
def ReconnectionManager.handleConnectionLoss (s : ReconnectionManager) :
    ReconnectionManager :=
  if s.reconnectionState ≠ RStatus.idle then s
  else { s with reconnectionState := RStatus.detecting }

/-- Fixed identity handler state used by the concrete counterexamples
below: id "b", not in any call, no per-call connections. -/
def gHandlerB : GroupCallHandler :=
  { userId := "b", currentGroupCall := none, callConnections := [] }

/-- The invite used by the C9 counterexample: inviter "a", call "c1",
participant payload ["a", "c"]. -/
def inviteAC : InviteMsg :=
  { callId := "c1", fromId := "a", participants := ["a", "c"], isVideo := false }

/-- 201 pairwise-distinct message ids, used to show the deduplication
set outgrows the 200-id window the spec postulates. -/
def ids201 : List String :=
  (List.range 201).map (fun n => Nat.repr n)

/-- Call "c1" as member "c" sees it after joining. -/
def callC : GroupCall :=
  { id := "c1", initiator := "a", participants := ["a", "c", "b"], isVideo := false }

/-- Member "c" of call "c1", currently connected to nobody. -/
def gC : GroupCallHandler :=
  { userId := "c", currentGroupCall := some callC, callConnections := [] }

/-! ## Theorems -/

/-! ### Association-list lemmas -/

theorem mapHas_cons {α : Type} (p : String × α) (rest : List (String × α)) (k : String) :
    mapHas (p :: rest) k = ((p.1 == k) || mapHas rest k) := by
  simp [mapHas]

theorem mapGet?_cons {α : Type} (p : String × α) (rest : List (String × α)) (k : String) :
    mapGet? (p :: rest) k = if p.1 == k then some p.2 else mapGet? rest k := by
  cases hp : p.1 == k <;> simp [mapGet?, List.find?, hp]

theorem mapDelete_cons {α : Type} (p : String × α) (rest : List (String × α)) (k : String) :
    mapDelete (p :: rest) k =
      if p.1 == k then mapDelete rest k else p :: mapDelete rest k := by
  cases hp : p.1 == k <;> simp [mapDelete, List.filter_cons, hp]

theorem mapHas_eq_isSome {α : Type} (m : List (String × α)) (k : String) :
    mapHas m k = (mapGet? m k).isSome := by
  induction m with
  | nil => rfl
  | cons p rest ih =>
    rw [mapHas_cons, mapGet?_cons]
    cases hp : p.1 == k with
    | true => simp
    | false => simpa using ih

theorem mapGet?_set_self {α : Type} (m : List (String × α)) (k : String) (v : α) :
    mapGet? (mapSet m k v) k = some v := by
  induction m with
  | nil => simp [mapSet, mapGet?, List.find?]
  | cons p rest ih =>
    cases hp : p.1 == k with
    | true => simp [mapSet, hp, mapGet?_cons]
    | false =>
      rw [mapSet, if_neg (by simp [hp]), mapGet?_cons, if_neg (by simp [hp])]
      exact ih

theorem mapGet?_set_ne {α : Type} (m : List (String × α)) (k k' : String) (v : α)
    (hne : k ≠ k') : mapGet? (mapSet m k v) k' = mapGet? m k' := by
  induction m with
  | nil =>
    simp [mapSet, mapGet?, List.find?, beq_eq_false_iff_ne.mpr hne]
  | cons p rest ih =>
    cases hp : p.1 == k with
    | true =>
      have hpk : p.1 = k := eq_of_beq hp
      have h1 : (k == k') = false := beq_eq_false_iff_ne.mpr hne
      have h2 : (p.1 == k') = false := by rw [hpk]; exact h1
      rw [mapSet, if_pos (by simp [hp]), mapGet?_cons, mapGet?_cons]
      simp [h1, h2]
    | false =>
      rw [mapSet, if_neg (by simp [hp]), mapGet?_cons, mapGet?_cons]
      cases hp' : p.1 == k' with
      | true => simp
      | false => simpa using ih

theorem mapHas_set_self {α : Type} (m : List (String × α)) (k : String) (v : α) :
    mapHas (mapSet m k v) k = true := by
  rw [mapHas_eq_isSome, mapGet?_set_self]; rfl

theorem mapHas_set_ne {α : Type} (m : List (String × α)) (k k' : String) (v : α)
    (hne : k ≠ k') : mapHas (mapSet m k v) k' = mapHas m k' := by
  rw [mapHas_eq_isSome, mapHas_eq_isSome, mapGet?_set_ne m k k' v hne]

theorem mapGet?_delete_self {α : Type} (m : List (String × α)) (k : String) :
    mapGet? (mapDelete m k) k = none := by
  induction m with
  | nil => rfl
  | cons p rest ih =>
    rw [mapDelete_cons]
    cases hp : p.1 == k with
    | true => simpa using ih
    | false =>
      rw [if_neg (by simp [hp]), mapGet?_cons, if_neg (by simp [hp])]
      exact ih

theorem mapGet?_delete_ne {α : Type} (m : List (String × α)) (k k' : String)
    (hne : k ≠ k') : mapGet? (mapDelete m k) k' = mapGet? m k' := by
  induction m with
  | nil => rfl
  | cons p rest ih =>
    rw [mapDelete_cons]
    cases hp : p.1 == k with
    | true =>
      have hpk : p.1 = k := eq_of_beq hp
      have h2 : (p.1 == k') = false := by
        rw [hpk]; exact beq_eq_false_iff_ne.mpr hne
      rw [if_pos (by simp [hp]), mapGet?_cons, if_neg (by simp [h2])]
      exact ih
    | false =>
      rw [if_neg (by simp [hp]), mapGet?_cons, mapGet?_cons]
      cases hp' : p.1 == k' with
      | true => simp
      | false => simpa using ih

theorem mapSet_length {α : Type} (m : List (String × α)) (k : String) (v : α) :
    (mapSet m k v).length = if mapHas m k then m.length else m.length + 1 := by
  induction m with
  | nil => simp [mapSet, mapHas]
  | cons p rest ih =>
    rw [mapHas_cons]
    cases hp : p.1 == k with
    | true => simp [mapSet, hp]
    | false =>
      rw [mapSet, if_neg (by simp [hp])]
      simp only [List.length_cons, ih, Bool.false_or]
      cases hr : mapHas rest k <;> simp

/-! ### Deduplication (message-handler.js) -/

theorem receiveMany_seen (s : MessageHandler) (id : String) (srcs : List Source)
    (h : mapHas s.messages id = true) :
    s.receiveMany id srcs = (List.replicate srcs.length false, s, 0) := by
  induction srcs with
  | nil => rfl
  | cons sc rest ih =>
    simp [MessageHandler.receiveMany, MessageHandler.receiveMessage, h, ih,
      List.replicate_succ]

theorem receiveMessage_fresh (s : MessageHandler) (id : String) (src : Source)
    (h : mapHas s.messages id = false) :
    s.receiveMessage id src =
      (true,
       { s with
          messages := mapSet s.messages id
            { sent := false, delivered := false, method := none,
              received := true, source := some src } },
       s.messageCallbacks) := by
  simp [MessageHandler.receiveMessage, h]

/-- Claim C1: delivering a message id to receiveMessage N ≥ 1 times, in
any mix of the webrtc and firebase paths, admits it exactly once: the
first call returns true and fires each registered message callback
once, every later call returns false and fires no callback. -/
theorem C1_receive_dedup_idempotent (s : MessageHandler) (id : String) (srcs : List Source)
    (hfresh : mapHas s.messages id = false) (hne : srcs ≠ []) :
    (s.receiveMany id srcs).1 = true :: List.replicate (srcs.length - 1) false ∧
    (s.receiveMany id srcs).2.2 = s.messageCallbacks := by
  cases srcs with
  | nil => exact absurd rfl hne
  | cons sc rest =>
    simp only [MessageHandler.receiveMany, receiveMessage_fresh s id sc hfresh]
    rw [receiveMany_seen _ id rest (by simpa using mapHas_set_self s.messages id _)]
    simp

theorem C1_receive_dedup_idempotent_witness :
    (MessageHandler.receiveMany ⟨[], 1⟩ "m1"
        [Source.webrtc, Source.firebase, Source.webrtc]).1 =
      true :: List.replicate 2 false ∧
    (MessageHandler.receiveMany ⟨[], 1⟩ "m1"
        [Source.webrtc, Source.firebase, Source.webrtc]).2.2 = 1 :=
  C1_receive_dedup_idempotent ⟨[], 1⟩ "m1"
    [Source.webrtc, Source.firebase, Source.webrtc] rfl (by decide)

/-! ### Unbounded retention of the deduplication set (claim C5) -/

theorem receiveAll_length (ids : List String) (s : MessageHandler)
    (hnodup : ids.Nodup) (hfresh : ∀ id ∈ ids, mapHas s.messages id = false) :
    (s.receiveAll ids).messages.length = s.messages.length + ids.length := by
  induction ids generalizing s with
  | nil => simp [MessageHandler.receiveAll]
  | cons id rest ih =>
    have h0 : mapHas s.messages id = false := hfresh id (by simp)
    obtain ⟨hnotmem, hrest⟩ := List.nodup_cons.mp hnodup
    rw [MessageHandler.receiveAll, receiveMessage_fresh s id Source.webrtc h0]
    rw [ih _ hrest ?fresh]
    · simp only [List.length_cons]
      rw [mapSet_length, h0]
      simp only [Bool.false_eq_true, if_false]
      omega
    case fresh =>
      intro id' hid'
      have hne : id ≠ id' := fun h => hnotmem (h ▸ hid')
      simpa [mapHas_set_ne _ id id' _ hne] using hfresh id' (List.mem_cons_of_mem _ hid')

/-- Claim C5 (amended): the recently-seen set consulted by
receiveMessage is unbounded — after receiving any number of distinct
fresh ids every one of them is retained, so no fixed cap (such as 200)
bounds the retained ids. -/
theorem C5_dedup_set_unbounded (ids : List String) (s : MessageHandler)
    (hnodup : ids.Nodup) (hfresh : ∀ id ∈ ids, mapHas s.messages id = false) :
    (s.receiveAll ids).messages.length = s.messages.length + ids.length :=
  receiveAll_length ids s hnodup hfresh

theorem C5_dedup_set_unbounded_witness :
    (MessageHandler.receiveAll ⟨[], 0⟩ ["a", "b"]).messages.length = 0 + 2 :=
  C5_dedup_set_unbounded ["a", "b"] ⟨[], 0⟩ (by decide) (by intro id _; rfl)

set_option maxRecDepth 8192 in
/-- Claim C5 counterexample: delivering 201 distinct message ids leaves
201 ids retained for deduplication, exceeding the claimed cap of 200. -/
theorem C5_dedup_cap_counterexample :
    (MessageHandler.receiveAll ⟨[], 0⟩ ids201).messages.length = 201 ∧ 200 < 201 := by
  constructor
  · have h := receiveAll_length ids201 ⟨[], 0⟩ (by decide) (by intro id _; rfl)
    simpa [ids201] using h
  · decide

/-! ### Dual-path send (claim C4) -/

/-- Claim C4 (amended): sendMessage stores the message under the newly
generated id, attempts direct WebRTC delivery first when connected, and
falls back to the relay whenever the direct attempt did not deliver —
either because no session is connected or because the direct send
itself failed; it records the successful path and returns the message
exactly when some path delivered it, null otherwise. -/
theorem C4_send_prefers_direct (s : MessageHandler) (id : String) (env : SendEnv) :
    (env.webrtcPresent = true → env.webrtcConnected = true → env.webrtcSendOk = true →
      (s.sendMessage id env).2.1 = some Method.webrtc ∧
      (s.sendMessage id env).1 = some id) ∧
    ((s.sendMessage id env).2.1 = some Method.firebase →
      (env.webrtcPresent && env.webrtcConnected && env.webrtcSendOk) = false ∧
      env.firebasePresent = true ∧ env.firebaseSendOk = true) ∧
    ((s.sendMessage id env).1 = none ↔
      (env.webrtcPresent && env.webrtcConnected && env.webrtcSendOk) = false ∧
      (env.firebasePresent && env.firebaseSendOk) = false) ∧
    ((s.sendMessage id env).1 = some id →
      mapGet? (s.sendMessage id env).2.2.messages id =
        some { sent := true, delivered := true, method := (s.sendMessage id env).2.1,
               received := false, source := none }) := by
  cases env with
  | mk wp wc wo fp fo =>
    cases wp <;> cases wc <;> cases wo <;> cases fp <;> cases fo <;>
      simp [MessageHandler.sendMessage, mapGet?_set_self]

theorem C4_send_prefers_direct_witness :
    ((MessageHandler.sendMessage ⟨[], 0⟩ "m1" ⟨true, true, true, true, true⟩).2.1 =
        some Method.webrtc ∧
      (MessageHandler.sendMessage ⟨[], 0⟩ "m1" ⟨true, true, true, true, true⟩).1 =
        some "m1") ∧
    (((false : Bool) && false && false) = false ∧ (true : Bool) = true ∧
      (true : Bool) = true) :=
  ⟨(C4_send_prefers_direct ⟨[], 0⟩ "m1" ⟨true, true, true, true, true⟩).1 rfl rfl rfl,
   (C4_send_prefers_direct ⟨[], 0⟩ "m1" ⟨false, false, false, true, true⟩).2.1 rfl⟩

/-- Claim C4 counterexample: with a connected direct session whose send
fails (for example, every open channel's buffer is over the 16 MiB
limit), sendMessage still delivers via the Firebase relay — refuting
that the relay is used only when no direct session is connected. -/
theorem C4_relay_despite_connection_counterexample :
    (MessageHandler.sendMessage ⟨[], 0⟩ "m1" ⟨true, true, false, true, true⟩).2.1 =
        some Method.firebase ∧
    (SendEnv.mk true true false true true).webrtcConnected = true := by
  exact ⟨rfl, rfl⟩

/-! ### Initiator election (claim C2) -/

theorem shouldInitiate_lt (x y : String) (h : x < y) :
    appShouldInitiate x y = true ∧ appShouldInitiate y x = false := by
  constructor
  · simpa [appShouldInitiate] using h
  · simp only [appShouldInitiate, decide_eq_false_iff_not]
    exact asymm h

/-- Claim C2: the initiator election used on chat join, on group-call
accept and by the reconnection manager is the same pure function
selfId < peerId, and for distinct ids exactly one of the two sides
computes true — so exactly one side initiates, with no coordination. -/
theorem C2_election_asymmetric (a b : String) (hne : a ≠ b) :
    appShouldInitiate a b ≠ appShouldInitiate b a ∧
    (appShouldInitiate a b = true ∨ appShouldInitiate b a = true) ∧
    groupCallShouldInitiate = appShouldInitiate ∧
    reconnectShouldInitiate = appShouldInitiate := by
  refine ⟨?_, ?_, rfl, rfl⟩
  · rcases lt_or_gt_of_ne hne with h | h
    · obtain ⟨h1, h2⟩ := shouldInitiate_lt a b h
      rw [h1, h2]; simp
    · obtain ⟨h1, h2⟩ := shouldInitiate_lt b a h
      rw [h1, h2]; simp
  · rcases lt_or_gt_of_ne hne with h | h
    · exact Or.inl (shouldInitiate_lt a b h).1
    · exact Or.inr (shouldInitiate_lt b a h).1

theorem C2_election_asymmetric_witness :
    appShouldInitiate "a" "b" ≠ appShouldInitiate "b" "a" ∧
    (appShouldInitiate "a" "b" = true ∨ appShouldInitiate "b" "a" = true) ∧
    groupCallShouldInitiate = appShouldInitiate ∧
    reconnectShouldInitiate = appShouldInitiate :=
  C2_election_asymmetric "a" "b" (by decide)

/-! ### Candidate buffering (claim C3) -/

theorem mapGet?_eq_none_of_has_false {α : Type} (m : List (String × α)) (k : String)
    (h : mapHas m k = false) : mapGet? m k = none := by
  cases hg : mapGet? m k with
  | none => rfl
  | some v => rw [mapHas_eq_isSome, hg] at h; simp at h

theorem createPeerConnection_not_has (s : WebRTCHandler) (p : String) (init : Bool)
    (h : mapHas s.peers p = false) :
    s.createPeerConnection p init =
      { s with initiatorMap := mapSet s.initiatorMap p init,
               peers := mapSet s.peers p (freshConn init) } := by
  simp [WebRTCHandler.createPeerConnection, h]

theorem processPending_flush (s : WebRTCHandler) (p : String) (pc : RTCConn)
    (hpc : mapGet? s.peers p = some pc) (hset : pc.remoteDescSet = true) :
    (s.processPendingCandidates p).appliedOf p = pc.applied ++ s.pendingOf p ∧
    (s.processPendingCandidates p).pendingOf p = [] := by
  cases hq : mapGet? s.pendingCandidates p with
  | none =>
    simp [WebRTCHandler.processPendingCandidates, WebRTCHandler.appliedOf,
      WebRTCHandler.pendingOf, hpc, hq]
  | some cands =>
    cases cands with
    | nil =>
      simp [WebRTCHandler.processPendingCandidates, WebRTCHandler.appliedOf,
        WebRTCHandler.pendingOf, hpc, hq]
    | cons c0 cs =>
      simp only [WebRTCHandler.processPendingCandidates, hq, hpc, hset,
        List.length_cons, if_true, if_pos (Nat.succ_pos cs.length)]
      constructor
      · simp [WebRTCHandler.appliedOf, WebRTCHandler.setPeer, mapGet?_set_self,
          WebRTCHandler.pendingOf, hq]
      · simp [WebRTCHandler.pendingOf, WebRTCHandler.setPeer, mapGet?_delete_self]

/-- Claim C3: a candidate signal that arrives before the peer's remote
description is set is queued (never dropped) in that peer's
pendingCandidates, and when the offer/answer exchange completes —
a valid offer is handled, or a valid answer is handled in state
have-local-offer — every buffered candidate is applied exactly once, in
order, and the pending queue is emptied. -/
theorem C3_candidate_buffered_then_flushed (s : WebRTCHandler) (p c : String) :
    ((∀ pc, mapGet? s.peers p = some pc → pc.remoteDescSet = false) →
      (s.handleSignal p (SignalMsg.iceCandidate (some c))).pendingOf p =
        s.pendingOf p ++ [c] ∧
      (s.handleSignal p (SignalMsg.iceCandidate (some c))).appliedOf p =
        s.appliedOf p) ∧
    ((s.handleSignal p (SignalMsg.offer true)).appliedOf p =
        s.appliedOf p ++ s.pendingOf p ∧
     (s.handleSignal p (SignalMsg.offer true)).pendingOf p = []) ∧
    (∀ pc, mapGet? s.peers p = some pc → pc.haveLocalOffer = true →
      (s.handleSignal p (SignalMsg.answer true)).appliedOf p =
        s.appliedOf p ++ s.pendingOf p ∧
      (s.handleSignal p (SignalMsg.answer true)).pendingOf p = []) := by
  refine ⟨?_, ?_, ?_⟩
  · intro hnot
    cases hhas : mapHas s.peers p with
    | true =>
      have hsome : (mapGet? s.peers p).isSome := by rw [← mapHas_eq_isSome]; exact hhas
      obtain ⟨pc, hpc⟩ := Option.isSome_iff_exists.mp hsome
      have hrd : pc.remoteDescSet = false := hnot pc hpc
      simp only [WebRTCHandler.handleSignal, hhas, if_true, hpc, hrd]
      constructor
      · simp [WebRTCHandler.pendingOf, mapGet?_set_self]
      · simp [WebRTCHandler.appliedOf, hpc]
    | false =>
      have hget : mapGet? s.peers p = none := mapGet?_eq_none_of_has_false s.peers p hhas
      simp only [WebRTCHandler.handleSignal, hhas, Bool.false_eq_true, if_false,
        createPeerConnection_not_has s p false hhas]
      simp only [mapGet?_set_self]
      constructor
      · simp [WebRTCHandler.pendingOf, mapGet?_set_self, freshConn]
      · simp [WebRTCHandler.appliedOf, mapGet?_set_self, freshConn, hget]
  · cases hhas : mapHas s.peers p with
    | true =>
      have hsome : (mapGet? s.peers p).isSome := by rw [← mapHas_eq_isSome]; exact hhas
      obtain ⟨pc, hpc⟩ := Option.isSome_iff_exists.mp hsome
      simp only [WebRTCHandler.handleSignal, hhas, if_true, hpc]
      have hpc1 : mapGet? (s.setPeer p { pc with remoteDescSet := true }).peers p =
          some { pc with remoteDescSet := true } := mapGet?_set_self s.peers p _
      have hflush := processPending_flush (s.setPeer p { pc with remoteDescSet := true })
        p { pc with remoteDescSet := true } hpc1 rfl
      refine ⟨?_, hflush.2⟩
      rw [hflush.1]
      simp [WebRTCHandler.appliedOf, hpc, WebRTCHandler.pendingOf, WebRTCHandler.setPeer]
    | false =>
      have hget : mapGet? s.peers p = none := mapGet?_eq_none_of_has_false s.peers p hhas
      simp only [WebRTCHandler.handleSignal, hhas, Bool.false_eq_true, if_false,
        createPeerConnection_not_has s p false hhas]
      simp only [mapGet?_set_self]
      set s1 : WebRTCHandler :=
        { s with initiatorMap := mapSet s.initiatorMap p false,
                 peers := mapSet s.peers p (freshConn false) } with hs1
      have hpc1 : mapGet? (s1.setPeer p { freshConn false with remoteDescSet := true }).peers
          p = some { freshConn false with remoteDescSet := true } :=
        mapGet?_set_self s1.peers p _
      have hflush := processPending_flush
        (s1.setPeer p { freshConn false with remoteDescSet := true }) p
        { freshConn false with remoteDescSet := true } hpc1 rfl
      refine ⟨?_, hflush.2⟩
      rw [hflush.1]
      simp [WebRTCHandler.appliedOf, hget, freshConn, WebRTCHandler.pendingOf,
        WebRTCHandler.setPeer]
  · intro pc hpc hoffer
    simp only [WebRTCHandler.handleSignal, hpc, hoffer, Bool.not_true,
      Bool.false_eq_true, if_false, if_true]
    have hpc1 : mapGet? (s.setPeer p
        { pc with remoteDescSet := true, haveLocalOffer := false }).peers p =
        some { pc with remoteDescSet := true, haveLocalOffer := false } :=
      mapGet?_set_self s.peers p _
    have hflush := processPending_flush
      (s.setPeer p { pc with remoteDescSet := true, haveLocalOffer := false }) p
      { pc with remoteDescSet := true, haveLocalOffer := false } hpc1 rfl
    refine ⟨?_, hflush.2⟩
    rw [hflush.1]
    simp [WebRTCHandler.appliedOf, hpc, WebRTCHandler.pendingOf, WebRTCHandler.setPeer]

theorem C3_candidate_buffered_then_flushed_witness :
    ((wOffer.handleSignal "p" (SignalMsg.iceCandidate (some "k2"))).pendingOf "p" =
        wOffer.pendingOf "p" ++ ["k2"] ∧
     (wOffer.handleSignal "p" (SignalMsg.iceCandidate (some "k2"))).appliedOf "p" =
        wOffer.appliedOf "p") ∧
    ((wOffer.handleSignal "p" (SignalMsg.offer true)).appliedOf "p" =
        wOffer.appliedOf "p" ++ wOffer.pendingOf "p" ∧
     (wOffer.handleSignal "p" (SignalMsg.offer true)).pendingOf "p" = []) ∧
    ((wOffer.handleSignal "p" (SignalMsg.answer true)).appliedOf "p" =
        wOffer.appliedOf "p" ++ wOffer.pendingOf "p" ∧
     (wOffer.handleSignal "p" (SignalMsg.answer true)).pendingOf "p" = []) := by
  have h := C3_candidate_buffered_then_flushed wOffer "p" "k2"
  refine ⟨h.1 ?_, h.2.1, h.2.2 (freshConn true) rfl rfl⟩
  intro pc hpc
  have hval : some (freshConn true) = some pc := hpc
  rw [← Option.some.inj hval]
  rfl

/-! ### Session replacement on open (claim C6) -/

/-- Claim C6 (amended): createPeerConnection never fails when a session
for the peer already exists — there is no AlreadyOpenError.  Instead it
first cleans the existing session up (closing and removing its data
channel, its pending-candidate queue and its initiator flag) and then
installs a fresh connection with the requested role in its place. -/
theorem C6_createPeerConnection_replaces (s : WebRTCHandler) (p : String) (init : Bool)
    (h : mapHas s.peers p = true) :
    mapGet? (s.createPeerConnection p init).peers p = some (freshConn init) ∧
    mapGet? (s.createPeerConnection p init).dataChannels p = none ∧
    (s.createPeerConnection p init).pendingOf p = [] ∧
    mapGet? (s.createPeerConnection p init).initiatorMap p = some init ∧
    s.createPeerConnection p init = (s.cleanupPeer p).createPeerConnection p init := by
  have hdel : mapHas (s.cleanupPeer p).peers p = false := by
    rw [mapHas_eq_isSome]
    simp [WebRTCHandler.cleanupPeer, mapGet?_delete_self]
  refine ⟨?_, ?_, ?_, ?_, ?_⟩
  · simp [WebRTCHandler.createPeerConnection, h, mapGet?_set_self]
  · simp [WebRTCHandler.createPeerConnection, h, WebRTCHandler.cleanupPeer,
      mapGet?_delete_self]
  · simp [WebRTCHandler.createPeerConnection, h, WebRTCHandler.cleanupPeer,
      WebRTCHandler.pendingOf, mapGet?_delete_self]
  · simp [WebRTCHandler.createPeerConnection, h, mapGet?_set_self]
  · simp [WebRTCHandler.createPeerConnection, h, hdel]

theorem C6_createPeerConnection_replaces_witness :
    mapGet? (wExisting.createPeerConnection "a" true).peers "a" = some (freshConn true) ∧
    mapGet? (wExisting.createPeerConnection "a" true).dataChannels "a" = none ∧
    (wExisting.createPeerConnection "a" true).pendingOf "a" = [] ∧
    mapGet? (wExisting.createPeerConnection "a" true).initiatorMap "a" = some true ∧
    wExisting.createPeerConnection "a" true =
      (wExisting.cleanupPeer "a").createPeerConnection "a" true :=
  C6_createPeerConnection_replaces wExisting "a" true (by decide)

/-- Claim C6 counterexample: with a non-terminal session already present
for peer "a", createPeerConnection does not fail and does not leave the
existing session in place — it installs a fresh initiator session and
discards the old session's buffered candidate. -/
theorem C6_no_alreadyOpenError_counterexample :
    mapHas wExisting.peers "a" = true ∧
    (wExisting.createPeerConnection "a" true).peers = [("a", freshConn true)] ∧
    freshConn true ≠ oldConnA ∧
    (wExisting.createPeerConnection "a" true).pendingCandidates = [] := by
  decide

/-! ### Group-call capacity (claim C7) -/

theorem setInsert_length (l : List String) (x : String) :
    (setInsert l x).length ≤ l.length + 1 := by
  unfold setInsert; split <;> simp

theorem foldl_setInsert_length (xs : List String) (acc : List String) :
    (xs.foldl setInsert acc).length ≤ acc.length + xs.length := by
  induction xs generalizing acc with
  | nil => simp
  | cons x rest ih =>
    simp only [List.foldl_cons, List.length_cons]
    have h1 := ih (setInsert acc x)
    have h2 := setInsert_length acc x
    omega

theorem setOfList_length_le (xs : List String) : (setOfList xs).length ≤ xs.length := by
  simpa using foldl_setInsert_length xs []

/-- Claim C7 (amended): a start request whose selection would push the
participant set above 4 members is not rejected and no CapacityExceeded
result exists — the selection is silently sliced to the first
maxParticipants - 1 peers (with an alert) and the call proceeds, so the
resulting participant set never exceeds 4 only because of the
truncation. -/
theorem C7_start_truncates_not_rejects (g : GroupCallHandler) (avail sel : List String)
    (video : Bool) (now : Nat) (hcall : g.currentGroupCall = none)
    (havail : avail.isEmpty = false) (hsel : sel.isEmpty = false) :
    (g.startGroupCall avail sel video true now).2 =
      StartResult.started
        (if sel.length > maxParticipants - 1 then sel.take (maxParticipants - 1)
         else sel) ∧
    (∃ call, (g.startGroupCall avail sel video true now).1.currentGroupCall = some call ∧
      call.participants =
        setOfList (g.userId ::
          (if sel.length > maxParticipants - 1 then sel.take (maxParticipants - 1)
           else sel)) ∧
      call.participants.length ≤ maxParticipants) := by
  have hlen : (if sel.length > maxParticipants - 1 then sel.take (maxParticipants - 1)
      else sel).length ≤ maxParticipants - 1 := by
    split
    · simp [List.length_take]
    · omega
  have hbound : (setOfList (g.userId ::
      (if sel.length > maxParticipants - 1 then sel.take (maxParticipants - 1)
       else sel))).length ≤ maxParticipants := by
    have h1 := setOfList_length_le (g.userId ::
      (if sel.length > maxParticipants - 1 then sel.take (maxParticipants - 1) else sel))
    simp only [List.length_cons] at h1
    have h2 : maxParticipants - 1 + 1 = maxParticipants := by decide
    omega
  have hgo : g.startGroupCall avail sel video true now =
      ({ g with currentGroupCall := some (GroupCall.mk ("group-" ++ Nat.repr now)
          g.userId
          (setOfList (g.userId ::
            (if sel.length > maxParticipants - 1 then sel.take (maxParticipants - 1)
             else sel)))
          video) },
       StartResult.started
         (if sel.length > maxParticipants - 1 then sel.take (maxParticipants - 1)
          else sel)) := by
    unfold GroupCallHandler.startGroupCall
    rw [hcall]
    simp [havail, hsel]
  rw [hgo]
  exact ⟨rfl, _, rfl, rfl, hbound⟩

theorem C7_start_truncates_not_rejects_witness :
    (gStarter.startGroupCall ["p1"] ["p1"] false true 0).2 =
      StartResult.started
        (if List.length ["p1"] > maxParticipants - 1 then
          List.take (maxParticipants - 1) ["p1"] else ["p1"]) ∧
    (∃ call, (gStarter.startGroupCall ["p1"] ["p1"] false true 0).1.currentGroupCall =
        some call ∧
      call.participants =
        setOfList (gStarter.userId ::
          (if List.length ["p1"] > maxParticipants - 1 then
            List.take (maxParticipants - 1) ["p1"] else ["p1"])) ∧
      call.participants.length ≤ maxParticipants) :=
  C7_start_truncates_not_rejects gStarter ["p1"] ["p1"] false 0 rfl rfl rfl

/-- Claim C7 counterexample: starting a call with four selected peers
(five members counting self) is not rejected with any CapacityExceeded
result: the call starts with the selection truncated to the first
three peers and the participant set is created (mutated) accordingly,
silently excluding "p4". -/
theorem C7_no_capacity_rejection_counterexample :
    (gStarter.startGroupCall ["p1", "p2", "p3", "p4"] ["p1", "p2", "p3", "p4"]
        false true 0).2 = StartResult.started ["p1", "p2", "p3"] ∧
    (gStarter.startGroupCall ["p1", "p2", "p3", "p4"] ["p1", "p2", "p3", "p4"]
        false true 0).1.currentGroupCall =
      some { id := "group-0", initiator := "m",
             participants := ["m", "p1", "p2", "p3"], isVideo := false } := by
  exact ⟨rfl, rfl⟩

/-! ### Reconnection backoff (claim C8) -/

/-- Claim C8 (amended): the delay is doubled before the retry is
scheduled, so the scheduled backoff delays of consecutive failed
attempts are 2 s, 4 s, 8 s and 16 s (never 1 s), the fifth failure
reaches the terminal failed state with no retry scheduled, every
scheduled delay is capped at 30 s, the failed state is never left by
the automatic connection-loss path, and only manualReconnect — which
resets the attempt counter and the 1 s base delay — restarts
reconnection from it. -/
theorem C8_backoff_schedule :
    (initialReconnectionManager.failedAttempts 5).2 =
      [some 2000, some 4000, some 8000, some 16000, none] ∧
    (initialReconnectionManager.failedAttempts 5).1.reconnectionState = RStatus.failed ∧
    (∀ s : ReconnectionManager,
      (s.handleReconnectionFailure).2.getD 0 ≤ maxReconnectionDelay) ∧
    (∀ a d : Nat, ReconnectionManager.handleConnectionLoss
        { reconnectionState := RStatus.failed, reconnectionAttempts := a,
          reconnectionDelay := d } =
      { reconnectionState := RStatus.failed, reconnectionAttempts := a,
        reconnectionDelay := d }) ∧
    (∀ a d : Nat, ReconnectionManager.manualReconnect
        { reconnectionState := RStatus.failed, reconnectionAttempts := a,
          reconnectionDelay := d } =
      { reconnectionState := RStatus.reconnecting, reconnectionAttempts := 1,
        reconnectionDelay := 1000 }) := by
  refine ⟨by decide, by decide, ?_, ?_, ?_⟩
  · intro s
    unfold ReconnectionManager.handleReconnectionFailure
    split
    · simp
    · simp
  · intro a d
    simp [ReconnectionManager.handleConnectionLoss]
  · intro a d
    simp [ReconnectionManager.manualReconnect, ReconnectionManager.startReconnectionBegin]

/-- Claim C8 counterexample: the very first scheduled backoff delay
after a failed attempt from the initial state is 2000 ms, not the
1000 ms the claimed schedule (1 s, 2 s, 4 s, 8 s, 16 s) begins with. -/
theorem C8_first_backoff_counterexample :
    (initialReconnectionManager.failedAttempt).2 = some 2000 ∧ (2000 : Nat) ≠ 1000 := by
  exact ⟨rfl, by decide⟩

/-! ### Group-call accept mesh formation (claim C9) -/

theorem acceptLoop_mem (u : String) (l : List String) (conns : List (String × Bool))
    (p : String) :
    p ∈ (GroupCallHandler.acceptLoop u conns l).2 ↔ p ∈ l ∧ p ≠ u ∧ u < p := by
  induction l generalizing conns with
  | nil => simp [GroupCallHandler.acceptLoop]
  | cons q rest ih =>
    by_cases hq : q ≠ u ∧ u < q
    · simp only [GroupCallHandler.acceptLoop, if_pos hq, List.mem_cons, ih]
      constructor
      · rintro (rfl | ⟨hm, hc⟩)
        · exact ⟨Or.inl rfl, hq⟩
        · exact ⟨Or.inr hm, hc⟩
      · rintro ⟨rfl | hm, hc⟩
        · exact Or.inl rfl
        · exact Or.inr ⟨hm, hc⟩
    · simp only [GroupCallHandler.acceptLoop, if_neg hq, ih, List.mem_cons]
      constructor
      · rintro ⟨hm, hc⟩
        exact ⟨Or.inr hm, hc⟩
      · rintro ⟨rfl | hm, hc⟩
        · exact absurd hc hq
        · exact ⟨hm, hc⟩

/-- Claim C9 (amended): on accept, the participant set is seeded with
every member of the inviter's payload (plus the inviter), and the
acceptor walks that whole list — not only the inviter — but initiates a
per-call session exactly to the members whose id is greater than its
own; for each remaining member, that member initiates toward the
acceptor when it handles the acceptor's participant-joined broadcast
(and has no session yet), so for every pair exactly one side initiates
and a later joiner is never left connected solely to the inviter. -/
theorem C9_accept_seeds_and_connects (g : GroupCallHandler) (msg : InviteMsg) (p : String)
    (hp : p ∈ msg.participants) (hne : p ≠ g.userId) :
    ((g.acceptGroupCall msg).1.currentGroupCall.map GroupCall.participants =
      some (setOfList (msg.participants ++ [msg.fromId]))) ∧
    (p ∈ (g.acceptGroupCall msg).2 ↔ g.userId < p) ∧
    (∀ gp : GroupCallHandler, ∀ call : GroupCall, gp.userId = p →
      gp.currentGroupCall = some call → call.id = msg.callId →
      mapHas gp.callConnections g.userId = false →
      ((gp.handleParticipantJoined msg.callId g.userId).2 = true ↔ p < g.userId)) ∧
    (g.userId < p ↔ ¬ p < g.userId) := by
  refine ⟨?_, ?_, ?_, ?_⟩
  · simp [GroupCallHandler.acceptGroupCall]
  · rw [show (g.acceptGroupCall msg).2 =
        (GroupCallHandler.acceptLoop g.userId g.callConnections msg.participants).2
      from rfl]
    rw [acceptLoop_mem]
    constructor
    · rintro ⟨_, _, h⟩; exact h
    · intro h; exact ⟨hp, hne, h⟩
  · intro gp call hu hcall hid hconn
    subst hu
    by_cases hlt : gp.userId < g.userId <;>
      simp [GroupCallHandler.handleParticipantJoined, hcall, hid, hconn, hlt]
  · constructor
    · intro h; exact asymm h
    · intro h; exact (lt_or_gt_of_ne hne).resolve_left h

theorem C9_accept_seeds_and_connects_witness :
    ((gHandlerB.acceptGroupCall inviteAC).1.currentGroupCall.map GroupCall.participants =
      some (setOfList (inviteAC.participants ++ [inviteAC.fromId]))) ∧
    ("c" ∈ (gHandlerB.acceptGroupCall inviteAC).2 ↔ gHandlerB.userId < "c") ∧
    ((gC.handleParticipantJoined inviteAC.callId gHandlerB.userId).2 = true ↔
      "c" < gHandlerB.userId) ∧
    (gHandlerB.userId < "c" ↔ ¬ "c" < gHandlerB.userId) := by
  have h := C9_accept_seeds_and_connects gHandlerB inviteAC "c" (by decide) (by decide)
  exact ⟨h.1, h.2.1, h.2.2.1 gC callC rfl rfl rfl (by decide), h.2.2.2⟩

/-- Claim C9 counterexample: acceptor "b" of the invite from "a" with
payload ["a", "c"] has "a" in its seeded participant set and no session
with "a", yet acceptGroupCall opens a connection only to "c" (whose id
is greater than "b") and none to "a" — refuting that the acceptor opens
a per-call session to every member it does not already have one with. -/
theorem lt_bc : ("b" : String) < "c" :=
  String.lt_iff_toList_lt.mpr (by decide)

theorem not_lt_ba : ¬ ("b" : String) < "a" :=
  fun h => absurd (String.lt_iff_toList_lt.mp h) (by decide)

theorem acceptLoop_b_eval :
    GroupCallHandler.acceptLoop "b" [] ["a", "c"] = ([("c", true)], ["c"]) := by
  have hskip : ¬(("a" : String) ≠ "b" ∧ ("b" : String) < "a") := fun h => not_lt_ba h.2
  have htake : (("c" : String) ≠ "b" ∧ ("b" : String) < "c") := ⟨by decide, lt_bc⟩
  simp [GroupCallHandler.acceptLoop, hskip, htake, mapSet]
  decide

theorem C9_accept_not_all_members_counterexample :
    "a" ∈ setOfList (inviteAC.participants ++ [inviteAC.fromId]) ∧
    "a" ≠ gHandlerB.userId ∧
    mapHas gHandlerB.callConnections "a" = false ∧
    (gHandlerB.acceptGroupCall inviteAC).2 = ["c"] ∧
    mapHas (gHandlerB.acceptGroupCall inviteAC).1.callConnections "a" = false := by
  have hacc : gHandlerB.acceptGroupCall inviteAC =
      ({ userId := "b",
         currentGroupCall := some
           { id := "c1", initiator := "a", participants := setOfList ["a", "c", "a"],
             isVideo := false },
         callConnections := [("c", true)] }, ["c"]) := by
    simp [GroupCallHandler.acceptGroupCall, inviteAC, gHandlerB, acceptLoop_b_eval]
  refine ⟨by decide, by decide, rfl, ?_, ?_⟩
  · rw [hacc]
  · rw [hacc]
    decide

/-! ### Broadcast send with receiver-side filtering (claim C10) -/

theorem sendLoop_spec (l : List (String × DataChannel)) :
    (WebRTCHandler.sendLoop l).1 = l.any channelAccepts ∧
    (WebRTCHandler.sendLoop l).2.2 = (l.filter channelAccepts).map (fun pc => pc.1) := by
  induction l with
  | nil => constructor <;> rfl
  | cons pc rest ih =>
    obtain ⟨ih1, ih2⟩ := ih
    obtain ⟨pid, ch⟩ := pc
    by_cases hb : ch.bufferedAmount > 16 * 1024 * 1024 <;>
      cases ho : ch.isOpen <;> cases hs : ch.sendOk <;>
        simp [WebRTCHandler.sendLoop, channelAccepts, ho, hs, hb, ih1, ih2,
          List.filter_cons, List.any_cons]

/-- Claim C10: WebRTCHandler.sendMessage has no addressed-peer
parameter — it broadcasts on every open (non-full, non-throwing) data
channel and returns true exactly when at least one channel accepted the
send; group-call control messages carry a to field that is ignored by
the transport and filtered only at each receiver, which drops a message
whose to field names someone else and processes one addressed to it when
the callId matches its current call. -/
theorem C10_broadcast_and_receiver_filter (s : WebRTCHandler) (g : GroupCallHandler)
    (callId t : String) :
    ((s.sendMessage).1 = s.dataChannels.any channelAccepts) ∧
    ((s.sendMessage).2.2 =
      (s.dataChannels.filter channelAccepts).map (fun pc => pc.1)) ∧
    (∀ call, g.currentGroupCall = some call → t ≠ g.userId →
      g.offerProcessed callId (some t) = false) ∧
    (g.offerProcessed callId (some g.userId) =
      (g.currentGroupCall.map (fun call => call.id == callId)).getD false) := by
  refine ⟨(sendLoop_spec s.dataChannels).1, (sendLoop_spec s.dataChannels).2, ?_, ?_⟩
  · intro call hcall hnet
    simp [GroupCallHandler.offerProcessed, hcall, groupMessageForUs,
      beq_eq_false_iff_ne.mpr hnet]
  · cases hcall : g.currentGroupCall with
    | none => simp [GroupCallHandler.offerProcessed, hcall]
    | some call => simp [GroupCallHandler.offerProcessed, hcall, groupMessageForUs]

theorem C10_broadcast_and_receiver_filter_witness :
    ((wExisting.sendMessage).1 = wExisting.dataChannels.any channelAccepts) ∧
    ((wExisting.sendMessage).2.2 =
      (wExisting.dataChannels.filter channelAccepts).map (fun pc => pc.1)) ∧
    (gC.offerProcessed "c1" (some "x") = false) ∧
    (gC.offerProcessed "c1" (some gC.userId) =
      (gC.currentGroupCall.map (fun call => call.id == "c1")).getD false) := by
  have h := C10_broadcast_and_receiver_filter wExisting gC "c1" "x"
  exact ⟨h.1, h.2.1, h.2.2.1 callC rfl (by decide), h.2.2.2⟩

end P2P
